import Mathlib

/-!
Verification of the property ingestion and search logic of the
`private-foundry` repository.

The definitions below are a shallow embedding of the TypeScript source:

* `publishToDatabase` embeds `src/app/json-uploader/actions.ts`:
  JSON payloads are modelled by the inductive `Json` type, JavaScript
  optional chaining by `Json.get` (which yields `Json.null` for a missing
  field or a non-object receiver, standing for both `null` and
  `undefined`), and the `|| null` idiom by `jsOrNull`.  The Prisma store
  is modelled by `Db`; store-side write rejections are modelled by a
  boolean oracle.
* `searchProperties`, `performFuzzySearch`, `performExactSearch`,
  `deleteProperty` and `uploadImageToS3` embed
  `src/app/property-workbench/actions.ts`.  Prisma `findMany` with an
  `OR` filter, insensitive matching, `orderBy updated_at desc` and
  `take 31` is modelled by filter / insertion sort / `take` over an
  explicit list of rows.

Timestamps are natural numbers; JSON numbers are integers (no claim
depends on fractional values).
-/

/-- Loosely typed JSON values as JavaScript sees a parsed payload.
`null` also stands for `undefined`: the two are indistinguishable through
the optional-chaining and `|| null` operations the code performs. -/
inductive Json where
  | null : Json
  | bool : Bool → Json
  | num : Int → Json
  | str : String → Json
  | arr : List Json → Json
  | obj : List (String × Json) → Json

/-- JavaScript truthiness: `null`/`undefined`, `false`, `0` and `""` are
falsy; every object and array is truthy. -/
def Json.truthy : Json → Bool
  | .null => false
  | .bool b => b
  | .num n => n != 0
  | .str s => s != ""
  | .arr _ => true
  | .obj _ => true

/-- Field access `j?.k`: the named field of an object, `Json.null`
(= `undefined`) otherwise. -/
def Json.get (j : Json) (k : String) : Json :=
  match j with
  | .obj fields =>
      match fields.lookup k with
      | some v => v
      | none => .null
  | _ => .null

/-- The `expr || null` idiom: keep a truthy value, collapse anything
falsy to `null`. -/
def jsOrNull (j : Json) : Json := if j.truthy then j else .null

/-- JavaScript `x?.toString()`.  Short-circuits to `null` on
`null`/`undefined`; array and object receivers are approximated by their
usual JavaScript renderings (no claim concerns them). -/
def jsToString : Json → Json
  | .null => .null
  | .bool b => .str (if b then "true" else "false")
  | .num n => .str (toString n)
  | .str s => .str s
  | .arr _ => .str ""
  | .obj _ => .str "[object Object]"

/-- The raw `propertyData` object literal built at lines 45-78 of
`json-uploader/actions.ts`; each field holds the JavaScript value that
the object literal would hold (with `undefined` collapsed to `null`). -/
structure PropertyDraft where
  street_address : Json
  zipcode : Json
  city : Json
  state : Json
  building_id : Json
  listing_status : Json
  price : Json
  display_name : Json
  business_name : Json
  phone_number : Json
  agent_badge_type : Json
  photo_url : Json
  profile_url : Json
  days_on_zillow : Json

/-- Field extraction of `publishToDatabase` (lines 45-78): every path is
read with optional chaining and defaulted with `|| null`;
`days_on_zillow` keeps the value only when `typeof` it is a number. -/
def extractDraft (searchResult : Json) : PropertyDraft :=
  let property := searchResult.get "property"
  let address := property.get "address"
  let agentInfo := ((property.get "contact_info").get "propertyInfo").get "agentInfo"
  { street_address := jsOrNull (address.get "streetAddress")
    zipcode := jsOrNull (address.get "zipcode")
    city := jsOrNull (address.get "city")
    state := jsOrNull (address.get "state")
    building_id := jsOrNull (jsToString (address.get "buildingId"))
    listing_status := jsOrNull ((property.get "listing").get "listingStatus")
    price := jsOrNull ((property.get "price").get "value")
    display_name := jsOrNull (agentInfo.get "displayName")
    business_name := jsOrNull (agentInfo.get "businessName")
    phone_number := jsOrNull (agentInfo.get "phoneNumber")
    agent_badge_type := jsOrNull (agentInfo.get "agentBadgeType")
    photo_url := jsOrNull (agentInfo.get "photoUrl")
    profile_url := jsOrNull (agentInfo.get "profileUrl")
    days_on_zillow :=
      match property.get "daysOnZillow" with
      | .num n => .num n
      | _ => .null }

/-- One row of the `property` table (Prisma model `Property`). -/
structure Property where
  id : Nat
  street_address : Option String := none
  zipcode : Option String := none
  city : Option String := none
  state : Option String := none
  building_id : Option String := none
  listing_status : Option String := none
  price : Option Int := none
  display_name : Option String := none
  business_name : Option String := none
  phone_number : Option String := none
  agent_badge_type : Option String := none
  photo_url : Option String := none
  profile_url : Option String := none
  days_on_zillow : Option Int := none
  contacted_agent : Bool := false
  notes : Option String := none
  created_at : Nat := 0
  updated_at : Nat := 0
  deriving DecidableEq, Repr

/-- Prisma validation of an optional string column: accepts `null` or a
string, rejects (throws on) anything else. -/
def toStrCol : Json → Option (Option String)
  | .null => some none
  | .str s => some (some s)
  | _ => none

/-- Prisma validation of an optional numeric column. -/
def toNumCol : Json → Option (Option Int)
  | .null => some none
  | .num n => some (some n)
  | _ => none

/-- Whether `prisma.property.create` accepts the draft: every column
value must be of the column's type or null (independent of the assigned
id and timestamp). -/
def draftValid (d : PropertyDraft) : Bool :=
  (toStrCol d.street_address).isSome && (toStrCol d.zipcode).isSome &&
  (toStrCol d.city).isSome && (toStrCol d.state).isSome &&
  (toStrCol d.building_id).isSome && (toStrCol d.listing_status).isSome &&
  (toNumCol d.price).isSome && (toStrCol d.display_name).isSome &&
  (toStrCol d.business_name).isSome && (toStrCol d.phone_number).isSome &&
  (toStrCol d.agent_badge_type).isSome && (toStrCol d.photo_url).isSome &&
  (toStrCol d.profile_url).isSome && (toNumCol d.days_on_zillow).isSome

/-- `prisma.property.create` on a draft: validates every column and
builds the row (`contacted_agent` defaults to false, `notes` to null,
both timestamps to now), or fails (throws) on a type mismatch. -/
def draftToRow (d : PropertyDraft) (newId : Nat) (now : Nat) : Option Property :=
  if draftValid d then
    some
      { id := newId
        street_address := (toStrCol d.street_address).getD none
        zipcode := (toStrCol d.zipcode).getD none
        city := (toStrCol d.city).getD none
        state := (toStrCol d.state).getD none
        building_id := (toStrCol d.building_id).getD none
        listing_status := (toStrCol d.listing_status).getD none
        price := (toNumCol d.price).getD none
        display_name := (toStrCol d.display_name).getD none
        business_name := (toStrCol d.business_name).getD none
        phone_number := (toStrCol d.phone_number).getD none
        agent_badge_type := (toStrCol d.agent_badge_type).getD none
        photo_url := (toStrCol d.photo_url).getD none
        profile_url := (toStrCol d.profile_url).getD none
        days_on_zillow := (toNumCol d.days_on_zillow).getD none
        contacted_agent := false
        notes := none
        created_at := now
        updated_at := now }
  else none

/-- The database state: the `property` table and the three image tables
(each image row is a pair of owning property id and URL), plus the next
auto-increment id. -/
structure Db where
  properties : List Property
  otherImages : List (Nat × String)
  unstagedImages : List (Nat × String)
  generatedImages : List (Nat × String)
  nextId : Nat
  deriving DecidableEq, Repr

/-- `searchResult?.property?.media?.allPropertyPhotos?.unstaged`, kept
only when it is an array (`Array.isArray`). -/
def unstagedList (searchResult : Json) : Option (List Json) :=
  match (((searchResult.get "property").get "media").get "allPropertyPhotos").get "unstaged" with
  | .arr xs => some xs
  | _ => none

/-- `searchResult?.property?.media?.allPropertyPhotos?.highResolution`
when it is an array. -/
def highResList (searchResult : Json) : Option (List Json) :=
  match (((searchResult.get "property").get "media").get "allPropertyPhotos").get "highResolution" with
  | .arr xs => some xs
  | _ => none

/-- `createMany` URL validation: every mapped element must be a string. -/
def toUrlList (xs : List Json) : Option (List String) :=
  xs.mapM fun j =>
    match j with
    | .str s => some s
    | _ => none

/-- One iteration of the `for` loop of `publishToDatabase`, including its
`try/catch`.  Returns the updated database and `true` when the item was
published (`false`: skipped, either by the unstaged-image gate or because
a write threw).  `ok i s` is the persistence oracle: whether the external
store accepts write `s` of item `i` (0 = `property.create`,
1 = `otherImage.createMany`, 2 = `unstagedImage.createMany`).  A throw
after the property row was created keeps the earlier rows, exactly as the
source (there is no transaction around one item). -/
def processItem (ok : Nat → Nat → Bool) (now : Nat) (db : Db) (i : Nat)
    (searchResult : Json) : Db × Bool :=
  match unstagedList searchResult with
  | none => (db, false)
  | some us =>
    if us.isEmpty then (db, false)
    else
      match draftToRow (extractDraft searchResult) db.nextId now, ok i 0 with
      | some row, true =>
        let db1 : Db :=
          { db with properties := db.properties ++ [row], nextId := db.nextId + 1 }
        let hrStep : Option Db :=
          match highResList searchResult with
          | some hr =>
            if hr.isEmpty then some db1
            else
              match toUrlList hr, ok i 1 with
              | some urls, true =>
                  some { db1 with
                         otherImages := db1.otherImages ++ urls.map fun u => (row.id, u) }
              | _, _ => none
          | none => some db1
        match hrStep with
        | none => (db1, false)
        | some db2 =>
          match toUrlList us, ok i 2 with
          | some urls, true =>
              ({ db2 with
                 unstagedImages := db2.unstagedImages ++ urls.map fun u => (row.id, u) },
               true)
          | _, _ => (db2, false)
      | _, _ => (db, false)

/-- Whether item `i` gets published, as a pointwise predicate. -/
def itemPublishes (ok : Nat → Nat → Bool) (i : Nat) (searchResult : Json) : Bool :=
  match unstagedList searchResult with
  | none => false
  | some us =>
    !us.isEmpty && draftValid (extractDraft searchResult) && ok i 0 &&
    (match highResList searchResult with
     | some hr => hr.isEmpty || ((toUrlList hr).isSome && ok i 1)
     | none => true) &&
    (toUrlList us).isSome && ok i 2

/-- Whether item `i` gets a `property` row created for it (the writes up
to and including `property.create` succeed). -/
def itemCreatesRow (ok : Nat → Nat → Bool) (i : Nat) (searchResult : Json) : Bool :=
  match unstagedList searchResult with
  | none => false
  | some us =>
    !us.isEmpty && draftValid (extractDraft searchResult) && ok i 0

/-- The result value of `publishToDatabase`. -/
structure PublishResult where
  success : Bool
  published : Nat
  skipped : Nat
  error : Option String
  deriving DecidableEq, Repr

/-- The loop of `publishToDatabase`: fold over the items, threading the
database, the item index and the two counters. -/
def runItems (ok : Nat → Nat → Bool) (now : Nat) :
    List Json → Db → Nat → Nat → Nat → Nat × Nat × Db
  | [], db, _, pub, skip => (pub, skip, db)
  | item :: rest, db, i, pub, skip =>
    let step := processItem ok now db i item
    if step.2 then runItems ok now rest step.1 (i + 1) (pub + 1) skip
    else runItems ok now rest step.1 (i + 1) pub (skip + 1)

/-- `publishToDatabase` of `json-uploader/actions.ts`, starting from the
parsed payload.  Line 20 reads `data.searchResults` with a plain (not
optional) access: on the parsed payload `null` that access throws a
TypeError, which the outer catch turns into a failure result carrying
the TypeError message.  (`JSON.parse` never yields `undefined`, so the
null receiver is the only throwing case.)  On any other payload the
structural check `!data.searchResults || !Array.isArray(...)` is
equivalent to the field not being an array, since a JavaScript array is
always truthy and a non-object receiver just yields `undefined`. -/
def publishToDatabase (ok : Nat → Nat → Bool) (now : Nat) (db : Db)
    (data : Json) : PublishResult × Db :=
  match data with
  | .null =>
    ({ success := false, published := 0, skipped := 0,
       error := some "Cannot read properties of null (reading 'searchResults')" },
     db)
  | _ =>
    match data.get "searchResults" with
    | .arr items =>
      let r := runItems ok now items db 0 0 0
      ({ success := true, published := r.1, skipped := r.2.1, error := none }, r.2.2)
    | _ =>
      ({ success := false, published := 0, skipped := 0,
         error := some "Invalid JSON structure: searchResults not found or not an array" },
       db)

/-- The row projection selected by every search query in
`property-workbench/actions.ts`. -/
structure SearchResultSummary where
  id : Nat
  street_address : Option String
  state : Option String
  display_name : Option String
  phone_number : Option String
  created_at : Nat
  updated_at : Nat
  contacted_agent : Bool
  deriving DecidableEq, Repr

/-- The `select` projection of the search queries. -/
def toSummary (p : Property) : SearchResultSummary :=
  { id := p.id
    street_address := p.street_address
    state := p.state
    display_name := p.display_name
    phone_number := p.phone_number
    created_at := p.created_at
    updated_at := p.updated_at
    contacted_agent := p.contacted_agent }

/-- Lower-casing, character by character (the insensitive comparison of
the store; structural so that concrete queries evaluate). -/
def lowerStr (s : String) : String := ⟨s.data.map Char.toLower⟩

/-- `searchTerm.trim()`: strip leading and trailing whitespace. -/
def strTrim (s : String) : String :=
  ⟨((s.data.dropWhile Char.isWhitespace).reverse.dropWhile Char.isWhitespace).reverse⟩

/-- Whether `needle` is a prefix of `hay` (character lists). -/
def charsStart : List Char → List Char → Bool
  | [], _ => true
  | _ :: _, [] => false
  | a :: as, b :: bs => a == b && charsStart as bs

/-- Whether `needle` occurs as a contiguous run inside `hay`. -/
def charsContains : List Char → List Char → Bool
  | needle, [] => needle.isEmpty
  | needle, b :: bs => charsStart needle (b :: bs) || charsContains needle bs

/-- Prisma `contains` with `mode: insensitive` on a nullable column:
a NULL column never matches. -/
def containsCI (field : Option String) (term : String) : Bool :=
  match field with
  | some s => charsContains (lowerStr term).data (lowerStr s).data
  | none => false

/-- Prisma `equals` with `mode: insensitive` on a nullable column. -/
def equalsCI (field : Option String) (term : String) : Bool :=
  match field with
  | some s => lowerStr s == lowerStr term
  | none => false

/-- The `OR` filter of `performFuzzySearch`: case-insensitive substring
match on street address, display name or phone number. -/
def fuzzyMatchRow (term : String) (p : Property) : Bool :=
  containsCI p.street_address term || containsCI p.display_name term ||
    containsCI p.phone_number term

/-- The `OR` filter of `performExactSearch`: case-insensitive full
equality on street address, display name or phone number. -/
def exactMatchRow (term : String) (p : Property) : Bool :=
  equalsCI p.street_address term || equalsCI p.display_name term ||
    equalsCI p.phone_number term

/-- The descending order on rows used by `orderBy: updated_at desc`. -/
def updatedDesc (a b : Property) : Prop := b.updated_at ≤ a.updated_at

instance : DecidableRel updatedDesc := fun a b => Nat.decLe b.updated_at a.updated_at

instance : IsTotal Property updatedDesc := ⟨fun a b => le_total b.updated_at a.updated_at⟩

instance : IsTrans Property updatedDesc := ⟨fun _ _ _ hab hbc => le_trans hbc hab⟩

/-- `orderBy: updated_at desc` as an insertion sort by `updatedDesc`. -/
def sortByUpdatedDesc (l : List Property) : List Property :=
  l.insertionSort updatedDesc

/-- `performFuzzySearch` (lines 362-388): trim the term, filter by the
substring `OR` clause, order by `updated_at` descending, `take 31`,
project to the summary. -/
def performFuzzySearch (store : List Property) (searchTerm : String) :
    List SearchResultSummary :=
  let term := strTrim searchTerm
  ((sortByUpdatedDesc (store.filter (fuzzyMatchRow term))).take 31).map toSummary

/-- `performExactSearch` (lines 333-357). -/
def performExactSearch (store : List Property) (term : String) :
    List SearchResultSummary :=
  ((sortByUpdatedDesc (store.filter (exactMatchRow term))).take 31).map toSummary

/-- The regular expression test of a purely numeric trimmed term. -/
def isNumericStr (s : String) : Bool :=
  !s.isEmpty && s.data.all fun c => c.isDigit

/-- `parseInt` on a string of digits. -/
def parseDigits (s : String) : Nat :=
  s.data.foldl (fun acc c => acc * 10 + (c.toNat - 48)) 0

/-- `prisma.property.findUnique` by id. -/
def findById (store : List Property) (n : Nat) : Option Property :=
  store.find? fun p => p.id == n

/-- The quoted-query test of the regular expression matching a leading
and a trailing double quote with the inner term captured between them. -/
def stripQuotes (s : String) : Option String :=
  if 2 ≤ s.data.length && s.data.head? == some '\"' && s.data.getLast? == some '\"' then
    some ⟨(s.data.drop 1).dropLast⟩
  else none

/-- `searchProperties` (lines 247-328): empty query, ID-only mode,
numeric query with exact-id prepend and dedup, quoted exact search,
plain fuzzy search. -/
def searchProperties (store : List Property) (searchTerm : String)
    (idOnly : Bool) : List SearchResultSummary :=
  if (strTrim searchTerm).isEmpty then []
  else
    let isNumeric := isNumericStr (strTrim searchTerm)
    if idOnly then
      if !isNumeric then []
      else
        match findById store (parseDigits (strTrim searchTerm)) with
        | some p => [toSummary p]
        | none => []
    else if isNumeric then
      let fuzzyMatches := performFuzzySearch store searchTerm
      match findById store (parseDigits (strTrim searchTerm)) with
      | some m =>
        if fuzzyMatches.any (fun p => p.id == m.id) then fuzzyMatches
        else toSummary m :: fuzzyMatches
      | none => fuzzyMatches
    else
      match stripQuotes searchTerm with
      | some inner => performExactSearch store inner
      | none => performFuzzySearch store searchTerm

/-- Modelled from the spec: the caller of the search engine, which is
not among the repository files available under `src/`.  Per spec section
4.3 it trims the fetched rows to the 30-row display cap and raises the
"more results" signal exactly when the 31st fetched row is present. -/
def searchWithSignal (store : List Property) (searchTerm : String)
    (idOnly : Bool) : List SearchResultSummary × Bool :=
  let r := searchProperties store searchTerm idOnly
  (r.take 30, decide (30 < r.length))

/-- The true number of store records matching a query, mode by mode, as
the spec describes the match semantics (section 4.3): the records the
id lookup can return in ID-only mode, the fuzzy matches together with
the id match for a numeric query in normal mode, the exact matches for a
quoted query, and the substring matches otherwise. -/
def trueMatchCount (store : List Property) (searchTerm : String)
    (idOnly : Bool) : Nat :=
  if (strTrim searchTerm).isEmpty then 0
  else
    let isNumeric := isNumericStr (strTrim searchTerm)
    if idOnly then
      if !isNumeric then 0
      else (store.filter fun p => p.id == parseDigits (strTrim searchTerm)).length
    else if isNumeric then
      (store.filter fun p =>
        fuzzyMatchRow (strTrim searchTerm) p || p.id == parseDigits (strTrim searchTerm)).length
    else
      match stripQuotes searchTerm with
      | some inner => (store.filter (exactMatchRow inner)).length
      | none => (store.filter (fuzzyMatchRow (strTrim searchTerm))).length

/-- The body of the `prisma.$transaction` callback of `deleteProperty`
(lines 209-240), executed step by step: delete the other-image rows, the
generated-image rows and the unstaged-image rows of the property, then
the property row itself (`tx.property.delete` throws when no row has the
given id).  `stepOk s` is the failure oracle for step `s` (0..3): `none`
is returned as soon as a step throws. -/
def txDeleteSteps (db : Db) (pid : Nat) (stepOk : Nat → Bool) : Option Db :=
  if !stepOk 0 then none else
  let db0 := { db with otherImages := db.otherImages.filter fun r => r.1 != pid }
  if !stepOk 1 then none else
  let db1 := { db0 with generatedImages := db0.generatedImages.filter fun r => r.1 != pid }
  if !stepOk 2 then none else
  let db2 := { db1 with unstagedImages := db1.unstagedImages.filter fun r => r.1 != pid }
  if !stepOk 3 then none else
  if db2.properties.any (fun p => p.id == pid) then
    some { db2 with properties := db2.properties.filter fun p => p.id != pid }
  else none

/-- `deleteProperty`: the four deletes run inside one
`prisma.$transaction`, so a throw at any step rolls the whole unit back
and the `catch` block rethrows a generic error, leaving the database
unchanged; when every step succeeds the accumulated state is committed. -/
def deleteProperty (db : Db) (pid : Nat) (stepOk : Nat → Bool) :
    Except String Unit × Db :=
  match txDeleteSteps db pid stepOk with
  | some db2 => (Except.ok (), db2)
  | none => (Except.error "Failed to delete property", db)

/-- The file carried by the upload form. -/
structure UploadFile where
  ftype : String
  bytes : List Nat
  deriving DecidableEq, Repr

/-- The fields read out of the `FormData` by `uploadImageToS3`:
`propertyId = none` models `parseInt` yielding `NaN` on a missing or
non-numeric field. -/
structure UploadInput where
  file : Option UploadFile
  propertyId : Option Nat
  streetAddress : String
  deriving DecidableEq, Repr

/-- The result value of `uploadImageToS3`. -/
structure UploadResult where
  success : Bool
  error : Option String
  deriving DecidableEq, Repr

/-- `uploadImageToS3` (lines 116-184): validate the form fields and the
MIME type, build the file name from the street address and the random
hex string, upload to object storage, and only then write the
generated-image row.  `s3Ok` and `dbOk` are the failure oracles for the
two external calls; a throw is caught and surfaced as a failure result
carrying the thrown message (stand-in message strings here), with the
database left as it was at the throw. -/
def uploadImageToS3 (db : Db) (inp : UploadInput) (randomString : String)
    (s3Ok : Bool) (dbOk : Bool) : UploadResult × Db :=
  match inp.file, inp.propertyId with
  | none, _ => ({ success := false, error := some "Missing required data" }, db)
  | some _, none => ({ success := false, error := some "Missing required data" }, db)
  | some f, some pid =>
    if pid == 0 then
      ({ success := false, error := some "Missing required data" }, db)
    else if !f.ftype.startsWith "image/" then
      ({ success := false, error := some "File must be an image" }, db)
    else
      let fileName := inp.streetAddress ++ "-" ++ randomString ++ ".jpg"
      if !s3Ok then
        ({ success := false, error := some "S3 upload failed" }, db)
      else if !dbOk then
        ({ success := false, error := some "Database write failed" }, db)
      else
        ({ success := true, error := none },
         { db with generatedImages := db.generatedImages ++ [(pid, fileName)] })

/-! ### Concrete fixtures used by witnesses and counterexamples -/

/-- An empty database. -/
def dbEmpty : Db :=
  { properties := [], otherImages := [], unstagedImages := [], generatedImages := [], nextId := 1 }

/-- A publishable search-result item in the schema the code reads. -/
def itemGood : Json :=
  Json.obj [("property", Json.obj
    [ ("address", Json.obj
        [ ("streetAddress", Json.str "123 Main St")
        , ("zipcode", Json.str "90001")
        , ("city", Json.str "Los Angeles")
        , ("state", Json.str "CA") ])
    , ("listing", Json.obj [("listingStatus", Json.str "FOR_SALE")])
    , ("price", Json.obj [("value", Json.num 500000)])
    , ("daysOnZillow", Json.num 12)
    , ("media", Json.obj [("allPropertyPhotos", Json.obj
        [ ("unstaged", Json.arr [Json.str "u1", Json.str "u2"])
        , ("highResolution", Json.arr [Json.str "h1"]) ])])
    ])]

/-- A payload with one publishable item and one item lacking the
unstaged-image list. -/
def payloadGood : Json :=
  Json.obj [("searchResults", Json.arr [itemGood, Json.obj []])]

/-- An item whose price is a bare number and whose days-on-market is a
numeric string. -/
def c4item : Json :=
  Json.obj [("property", Json.obj
    [("price", Json.num 42), ("daysOnZillow", Json.str "12")])]

/-- An item written in the legacy schema variant: listing status at
`property.listingStatus`, a bare-number price at `property.price`, the
agent under `property.agent`. -/
def c7item : Json :=
  Json.obj [("property", Json.obj
    [ ("listingStatus", Json.str "FOR_SALE")
    , ("price", Json.num 500000)
    , ("agent", Json.obj
        [("displayName", Json.str "Bob"), ("phoneNumber", Json.str "555-1234")])
    , ("media", Json.obj [("allPropertyPhotos", Json.obj
        [("unstaged", Json.arr [Json.str "u1"])])])
    ])]

/-- An item whose extracted source fields are all falsy: empty strings
and a zero price value. -/
def c10item : Json :=
  Json.obj [("property", Json.obj
    [ ("address", Json.obj
        [ ("streetAddress", Json.str "")
        , ("zipcode", Json.str "")
        , ("city", Json.str "")
        , ("state", Json.str "") ])
    , ("price", Json.obj [("value", Json.num 0)])
    , ("contact_info", Json.obj [("propertyInfo", Json.obj [("agentInfo", Json.obj
        [ ("displayName", Json.str "")
        , ("phoneNumber", Json.str "")
        , ("photoUrl", Json.str "")
        , ("profileUrl", Json.str "") ])])])
    ])]

/-- Search fixture: id 7 does not fuzzy-match the query string `7`. -/
def pr7 : Property := { id := 7, street_address := some "9 Elm Ave", updated_at := 3 }

/-- Search fixture: street address contains `7`. -/
def pr2 : Property := { id := 2, street_address := some "717 Oak St", updated_at := 5 }

/-- Search fixture: phone number contains `7`. -/
def pr3 : Property :=
  { id := 3, display_name := some "Agent Smith", phone_number := some "555-0007", updated_at := 4 }

/-- A small store for the search witnesses. -/
def storeW : List Property := [pr7, pr2, pr3]

/-- A store of 32 records whose street address is exactly `x`: more
exact matches than the 31-row fetch limit. -/
def c6store : List Property :=
  (List.range 32).map fun i =>
    { id := i + 1, street_address := some "x", updated_at := i }

/-- A database with a property (id 4) owning rows in all three image
tables, next to an unrelated property (id 5). -/
def c8db : Db :=
  { properties := [{ id := 4 }, { id := 5 }]
    otherImages := [(4, "o1"), (5, "o2")]
    unstagedImages := [(4, "u1")]
    generatedImages := [(4, "g1"), (4, "g2")]
    nextId := 6 }

/-- A well-formed upload form input. -/
def uploadInputW : UploadInput :=
  { file := some { ftype := "image/png", bytes := [1, 2] }
    propertyId := some 4
    streetAddress := "main-st" }

/-- The persistence oracle that accepts item 0 and rejects every write
of any later item. -/
def okFirstOnly : Nat → Nat → Bool := fun i _ => i == 0

/-! ### Claim C3: structural abort of the ingestion run -/

/-- C3 fails on the code at one payload: the parsed payload `null` has
no `searchResults` array, and the run does abort with failure and zero
counts, but the plain access `data.searchResults` throws a TypeError
whose caught message is returned — not the structural error message the
claim asserts for every such payload. -/
theorem structural_abort_null_counterexample :
    (publishToDatabase okFirstOnly 0 dbEmpty Json.null).1.error =
      some "Cannot read properties of null (reading 'searchResults')" ∧
    (publishToDatabase okFirstOnly 0 dbEmpty Json.null).1.error ≠
      some "Invalid JSON structure: searchResults not found or not an array" ∧
    (publishToDatabase okFirstOnly 0 dbEmpty Json.null).1.success = false := by
  decide

/-- C3 amended: for every payload in which the expected top-level array
(`searchResults`) is absent or not an array, the ingestion run aborts as
a whole with failure, zero published and skipped, an error message, and
an unchanged database (no property or image row is created); the error
is the structural message for every such payload except the payload
`null`, where the plain access throws and the caught TypeError message
is reported instead. -/
theorem publish_structural_abort (ok : Nat → Nat → Bool) (now : Nat) (db : Db)
    (data : Json) (h : ∀ xs, data.get "searchResults" ≠ Json.arr xs) :
    (publishToDatabase ok now db data).1.success = false ∧
    (publishToDatabase ok now db data).1.published = 0 ∧
    (publishToDatabase ok now db data).1.skipped = 0 ∧
    (publishToDatabase ok now db data).1.error.isSome = true ∧
    (publishToDatabase ok now db data).2 = db ∧
    (data ≠ Json.null →
      (publishToDatabase ok now db data).1.error =
        some "Invalid JSON structure: searchResults not found or not an array") := by
  unfold publishToDatabase
  cases data with
  | null => exact ⟨rfl, rfl, rfl, rfl, rfl, fun hc => absurd rfl hc⟩
  | bool b => exact ⟨rfl, rfl, rfl, rfl, rfl, fun _ => rfl⟩
  | num n => exact ⟨rfl, rfl, rfl, rfl, rfl, fun _ => rfl⟩
  | str st => exact ⟨rfl, rfl, rfl, rfl, rfl, fun _ => rfl⟩
  | arr elems => exact ⟨rfl, rfl, rfl, rfl, rfl, fun _ => rfl⟩
  | obj fields =>
    dsimp only
    cases hg : (Json.obj fields).get "searchResults"
    case arr xs => exact absurd hg (h xs)
    all_goals exact ⟨rfl, rfl, rfl, rfl, rfl, fun _ => rfl⟩

/-- Witness: the structural abort applied to a payload whose
`searchResults` field is a string. -/
theorem publish_structural_abort_witness :
    (publishToDatabase okFirstOnly 0 dbEmpty
        (Json.obj [("searchResults", Json.str "oops")])).1.error =
      some "Invalid JSON structure: searchResults not found or not an array" :=
  (publish_structural_abort okFirstOnly 0 dbEmpty _
      (fun _ h => Json.noConfusion h)).2.2.2.2.2 (fun h => Json.noConfusion h)

/-! ### Claim C9: no orphan generated-image reference -/

/-- C9: the generated-image row is written only after the object-storage
put succeeds: an object-storage failure yields a failure result, and
every failure result (any earlier stage included) carries an error
message for the operator and leaves the database unchanged, so a failed
run never leaves an orphan image reference. -/
theorem upload_no_orphan_reference (db : Db) (inp : UploadInput)
    (randomString : String) (s3Ok dbOk : Bool) :
    (s3Ok = false → (uploadImageToS3 db inp randomString s3Ok dbOk).1.success = false) ∧
    ((uploadImageToS3 db inp randomString s3Ok dbOk).1.success = false →
      (uploadImageToS3 db inp randomString s3Ok dbOk).1.error.isSome = true ∧
      (uploadImageToS3 db inp randomString s3Ok dbOk).2 = db) := by
  unfold uploadImageToS3
  rcases inp with ⟨file, pid, sa⟩
  cases file <;> cases pid <;> simp
  split_ifs <;> simp_all

/-- Witness: a failed S3 put on a well-formed input yields a failure. -/
theorem upload_no_orphan_reference_witness :
    (uploadImageToS3 dbEmpty uploadInputW "ab12cd" false true).1.success = false :=
  (upload_no_orphan_reference dbEmpty uploadInputW "ab12cd" false true).1 rfl

/-! ### Claim C8: atomic cascading delete -/

/-- A committed delete transaction filtered all four tables. -/
theorem txDeleteSteps_some (db : Db) (pid : Nat) (stepOk : Nat → Bool) (db2 : Db)
    (h : txDeleteSteps db pid stepOk = some db2) :
    db2.otherImages = db.otherImages.filter (fun r => r.1 != pid) ∧
    db2.generatedImages = db.generatedImages.filter (fun r => r.1 != pid) ∧
    db2.unstagedImages = db.unstagedImages.filter (fun r => r.1 != pid) ∧
    db2.properties = db.properties.filter (fun p => p.id != pid) := by
  unfold txDeleteSteps at h
  dsimp only at h
  split_ifs at h
  all_goals injection h with h
  all_goals subst h
  all_goals exact ⟨rfl, rfl, rfl, rfl⟩

/-- C8: deleting a property removes, as one transactional unit, every
row of the three image collections belonging to that property together
with the property row (rows of other properties are kept), and a failure
at any step of the transaction leaves the database untouched. -/
theorem deleteProperty_atomic (db : Db) (pid : Nat) (stepOk : Nat → Bool) :
    (∀ u : Unit, (deleteProperty db pid stepOk).1 = Except.ok u →
      ((deleteProperty db pid stepOk).2.otherImages.all fun r => r.1 != pid) = true ∧
      ((deleteProperty db pid stepOk).2.generatedImages.all fun r => r.1 != pid) = true ∧
      ((deleteProperty db pid stepOk).2.unstagedImages.all fun r => r.1 != pid) = true ∧
      ((deleteProperty db pid stepOk).2.properties.all fun p => p.id != pid) = true ∧
      (∀ r ∈ db.otherImages, r.1 ≠ pid → r ∈ (deleteProperty db pid stepOk).2.otherImages) ∧
      (∀ r ∈ db.generatedImages, r.1 ≠ pid → r ∈ (deleteProperty db pid stepOk).2.generatedImages) ∧
      (∀ r ∈ db.unstagedImages, r.1 ≠ pid → r ∈ (deleteProperty db pid stepOk).2.unstagedImages) ∧
      (∀ p ∈ db.properties, p.id ≠ pid → p ∈ (deleteProperty db pid stepOk).2.properties)) ∧
    (∀ e, (deleteProperty db pid stepOk).1 = Except.error e →
      (deleteProperty db pid stepOk).2 = db) := by
  constructor
  · intro u hok
    cases ht : txDeleteSteps db pid stepOk with
    | none => rw [deleteProperty, ht] at hok; cases hok
    | some db2 =>
      obtain ⟨e1, e2, e3, e4⟩ := txDeleteSteps_some db pid stepOk db2 ht
      rw [deleteProperty, ht]
      refine ⟨?_, ?_, ?_, ?_, ?_, ?_, ?_, ?_⟩
      · rw [e1]; exact List.all_eq_true.mpr fun x hx => (List.mem_filter.mp hx).2
      · rw [e2]; exact List.all_eq_true.mpr fun x hx => (List.mem_filter.mp hx).2
      · rw [e3]; exact List.all_eq_true.mpr fun x hx => (List.mem_filter.mp hx).2
      · rw [e4]; exact List.all_eq_true.mpr fun x hx => (List.mem_filter.mp hx).2
      · rw [e1]; exact fun r hr hne => List.mem_filter.mpr ⟨hr, by simpa using hne⟩
      · rw [e2]; exact fun r hr hne => List.mem_filter.mpr ⟨hr, by simpa using hne⟩
      · rw [e3]; exact fun r hr hne => List.mem_filter.mpr ⟨hr, by simpa using hne⟩
      · rw [e4]; exact fun p hmem hne => List.mem_filter.mpr ⟨hmem, by simpa using hne⟩
  · intro e herr
    cases ht : txDeleteSteps db pid stepOk with
    | none => rw [deleteProperty, ht]
    | some db2 => rw [deleteProperty, ht] at herr; cases herr

/-- Witness: the atomic delete applied to a populated database. -/
theorem deleteProperty_atomic_witness :
    ((deleteProperty c8db 4 fun _ => true).2.generatedImages.all fun r => r.1 != 4) = true :=
  ((deleteProperty_atomic c8db 4 fun _ => true).1 () rfl).2.1

/-! ### Claims C10, C4, C7: the normalizer's field extraction -/

/-- `|| null` never yields an empty string. -/
theorem jsOrNull_ne_empty_str (j : Json) : jsOrNull j ≠ Json.str "" := by
  unfold jsOrNull
  split
  · rename_i ht
    cases j <;> simp_all [Json.truthy]
  · simp

/-- `|| null` never yields the number zero. -/
theorem jsOrNull_ne_zero (j : Json) : jsOrNull j ≠ Json.num 0 := by
  unfold jsOrNull
  split
  · rename_i ht
    cases j <;> simp_all [Json.truthy]
  · simp

/-- C10 (implicit): the normalizer maps any falsy extracted source value
to null: an empty-string street address, city, state, zipcode, agent
name, phone or URL is stored as null, and a zero price value is stored
as null, so stored field values are never the empty string and a stored
price is never zero. -/
theorem normalizer_maps_falsy_to_null (item : Json) :
    ((extractDraft item).street_address ≠ Json.str "" ∧
     (extractDraft item).city ≠ Json.str "" ∧
     (extractDraft item).state ≠ Json.str "" ∧
     (extractDraft item).zipcode ≠ Json.str "" ∧
     (extractDraft item).display_name ≠ Json.str "" ∧
     (extractDraft item).phone_number ≠ Json.str "" ∧
     (extractDraft item).photo_url ≠ Json.str "" ∧
     (extractDraft item).profile_url ≠ Json.str "" ∧
     (extractDraft item).price ≠ Json.num 0) ∧
    ((((item.get "property").get "address").get "streetAddress" = Json.str "" →
        (extractDraft item).street_address = Json.null) ∧
     (((item.get "property").get "address").get "city" = Json.str "" →
        (extractDraft item).city = Json.null) ∧
     (((item.get "property").get "address").get "state" = Json.str "" →
        (extractDraft item).state = Json.null) ∧
     (((item.get "property").get "address").get "zipcode" = Json.str "" →
        (extractDraft item).zipcode = Json.null) ∧
     (((((item.get "property").get "contact_info").get "propertyInfo").get "agentInfo").get "displayName" = Json.str "" →
        (extractDraft item).display_name = Json.null) ∧
     (((((item.get "property").get "contact_info").get "propertyInfo").get "agentInfo").get "phoneNumber" = Json.str "" →
        (extractDraft item).phone_number = Json.null) ∧
     (((((item.get "property").get "contact_info").get "propertyInfo").get "agentInfo").get "photoUrl" = Json.str "" →
        (extractDraft item).photo_url = Json.null) ∧
     (((((item.get "property").get "contact_info").get "propertyInfo").get "agentInfo").get "profileUrl" = Json.str "" →
        (extractDraft item).profile_url = Json.null) ∧
     (((item.get "property").get "price").get "value" = Json.num 0 →
        (extractDraft item).price = Json.null)) := by
  simp only [extractDraft]
  refine ⟨⟨?_, ?_, ?_, ?_, ?_, ?_, ?_, ?_, ?_⟩,
          ?_, ?_, ?_, ?_, ?_, ?_, ?_, ?_, ?_⟩
  · exact jsOrNull_ne_empty_str _
  · exact jsOrNull_ne_empty_str _
  · exact jsOrNull_ne_empty_str _
  · exact jsOrNull_ne_empty_str _
  · exact jsOrNull_ne_empty_str _
  · exact jsOrNull_ne_empty_str _
  · exact jsOrNull_ne_empty_str _
  · exact jsOrNull_ne_empty_str _
  · exact jsOrNull_ne_zero _
  all_goals intro h
  all_goals rw [h]
  all_goals rfl

/-- Witness: an item carrying empty strings and a zero price value is
stored with nulls. -/
theorem normalizer_maps_falsy_to_null_witness :
    (extractDraft c10item).street_address = Json.null ∧
    (extractDraft c10item).price = Json.null :=
  ⟨(normalizer_maps_falsy_to_null c10item).2.1 rfl,
   (normalizer_maps_falsy_to_null c10item).2.2.2.2.2.2.2.2.2 rfl⟩

/-- C4 fails on the code: for an item whose price is a bare number (42)
and whose daysOnZillow is a numeric string ("12"), the extraction yields
null for both fields and not the coerced numbers, so numeric-string (and
bare-number price) coercion does not happen. -/
theorem numeric_coercion_counterexample :
    ¬ ((extractDraft c4item).price = Json.num 42 ∨
       (extractDraft c4item).days_on_zillow = Json.num 12) := by
  intro h
  have hp : (extractDraft c4item).price = Json.null := rfl
  have hd : (extractDraft c4item).days_on_zillow = Json.null := rfl
  rcases h with h | h
  · rw [hp] at h; exact Json.noConfusion h
  · rw [hd] at h; exact Json.noConfusion h

/-- C4 amended: the price is read only from a nested
`property.price.value` number (kept when non-zero), so a bare-number or
string-valued `property.price` yields null; days-on-market is kept only
when `property.daysOnZillow` is a number, so a numeric string yields
null; and a failed or zero coercion never stores zero. -/
theorem numeric_fields_amended (item : Json) :
    (∀ n : Int, (item.get "property").get "price" = Json.num n →
       (extractDraft item).price = Json.null) ∧
    (∀ s : String, (item.get "property").get "price" = Json.str s →
       (extractDraft item).price = Json.null) ∧
    (∀ s : String, (item.get "property").get "daysOnZillow" = Json.str s →
       (extractDraft item).days_on_zillow = Json.null) ∧
    (∀ n : Int, n ≠ 0 → ((item.get "property").get "price").get "value" = Json.num n →
       (extractDraft item).price = Json.num n) ∧
    (∀ n : Int, (item.get "property").get "daysOnZillow" = Json.num n →
       (extractDraft item).days_on_zillow = Json.num n) ∧
    (extractDraft item).price ≠ Json.num 0 := by
  simp only [extractDraft]
  refine ⟨?_, ?_, ?_, ?_, ?_, jsOrNull_ne_zero _⟩
  · intro n h; rw [h]; rfl
  · intro s h; rw [h]; rfl
  · intro s h; rw [h]
  · intro n hn h; rw [h]; simp [jsOrNull, Json.truthy, hn]
  · intro n h; rw [h]

/-- Witness: the amended numeric-field behavior at the concrete item
with a bare-number price. -/
theorem numeric_fields_amended_witness :
    (extractDraft c4item).price = Json.null ∧
    (extractDraft c4item).days_on_zillow = Json.null :=
  ⟨(numeric_fields_amended c4item).1 42 rfl,
   (numeric_fields_amended c4item).2.2.1 "12" rfl⟩

/-- C7 fails on the code: an item written in the legacy schema variant
(`property.listingStatus`, bare `property.price`, `property.agent.*`)
extracts null for listing status, agent display name, agent phone and
price — no legacy fallback chain exists. -/
theorem legacy_schema_counterexample :
    (extractDraft c7item).listing_status = Json.null ∧
    (extractDraft c7item).display_name = Json.null ∧
    (extractDraft c7item).phone_number = Json.null ∧
    (extractDraft c7item).price = Json.null :=
  ⟨rfl, rfl, rfl, rfl⟩

/-- C7 amended: each logical field is read from exactly one JSON path —
`property.listing.listingStatus`, `property.price.value`,
`property.contact_info.propertyInfo.agentInfo.*` — terminating in an
explicit null; when that single path is absent the stored value is null
regardless of any legacy-variant field, and when it holds a truthy value
that value is used. -/
theorem single_variant_extraction (item : Json) :
    (((item.get "property").get "listing").get "listingStatus" = Json.null →
       (extractDraft item).listing_status = Json.null) ∧
    (((item.get "property").get "price").get "value" = Json.null →
       (extractDraft item).price = Json.null) ∧
    (((((item.get "property").get "contact_info").get "propertyInfo").get "agentInfo").get "displayName" = Json.null →
       (extractDraft item).display_name = Json.null) ∧
    (((((item.get "property").get "contact_info").get "propertyInfo").get "agentInfo").get "phoneNumber" = Json.null →
       (extractDraft item).phone_number = Json.null) ∧
    (∀ s : String, s ≠ "" →
       ((item.get "property").get "listing").get "listingStatus" = Json.str s →
       (extractDraft item).listing_status = Json.str s) := by
  simp only [extractDraft]
  refine ⟨?_, ?_, ?_, ?_, ?_⟩
  · intro h; rw [h]; rfl
  · intro h; rw [h]; rfl
  · intro h; rw [h]; rfl
  · intro h; rw [h]; rfl
  · intro s hs h; rw [h]; simp [jsOrNull, Json.truthy, hs]

/-- Witness: the single-path extraction at the legacy-variant item. -/
theorem single_variant_extraction_witness :
    (extractDraft c7item).listing_status = Json.null ∧
    (extractDraft c7item).phone_number = Json.null :=
  ⟨(single_variant_extraction c7item).1 rfl,
   (single_variant_extraction c7item).2.2.2.1 rfl⟩

/-! ### Claim C1: batch accounting of the ingestion runner -/

/-- `property.create` succeeds exactly when the draft is valid,
independent of the assigned id and timestamp. -/
theorem draftToRow_isSome (d : PropertyDraft) (newId now : Nat) :
    (draftToRow d newId now).isSome = draftValid d := by
  unfold draftToRow
  by_cases h : draftValid d = true <;> simp [h]

/-- One loop iteration publishes exactly when `itemPublishes` holds, and
adds a property row exactly when `itemCreatesRow` holds. -/
theorem processItem_spec (ok : Nat → Nat → Bool) (now : Nat) (db : Db) (i : Nat)
    (sr : Json) :
    (processItem ok now db i sr).2 = itemPublishes ok i sr ∧
    (processItem ok now db i sr).1.properties.length =
      db.properties.length + (if itemCreatesRow ok i sr then 1 else 0) := by
  unfold processItem itemPublishes itemCreatesRow
  cases unstagedList sr with
  | none => simp
  | some us =>
    cases hus : us.isEmpty
    case true => simp [hus]
    case false =>
      have hv := draftToRow_isSome (extractDraft sr) db.nextId now
      cases hdr : draftToRow (extractDraft sr) db.nextId now <;> rw [hdr] at hv <;>
        simp only [Option.isSome_none, Option.isSome_some] at hv <;>
        cases hok0 : ok i 0
      · simp [hus, ← hv, hok0]
      · simp [hus, ← hv, hok0]
      · simp [hus, ← hv, hok0]
      · cases hhr : highResList sr with
        | none =>
          cases hul : toUrlList us <;> cases hok2 : ok i 2 <;>
            simp [hus, ← hv, hok0, hhr, hul, hok2]
        | some hr =>
          cases hhe : hr.isEmpty
          case true =>
            cases hul : toUrlList us <;> cases hok2 : ok i 2 <;>
              simp [hus, ← hv, hok0, hhr, hhe, hul, hok2]
          case false =>
            cases hu1 : toUrlList hr <;> cases hok1 : ok i 1
            · simp [hus, ← hv, hok0, hhr, hhe, hu1, hok1]
            · simp [hus, ← hv, hok0, hhr, hhe, hu1, hok1]
            · simp [hus, ← hv, hok0, hhr, hhe, hu1, hok1]
            · cases hul : toUrlList us <;> cases hok2 : ok i 2 <;>
                simp [hus, ← hv, hok0, hhr, hhe, hu1, hok1, hul, hok2]

/-- The fold of the runner equals the pointwise counts: published items
are exactly those `itemPublishes` accepts, every other item is skipped,
and property rows grow by exactly the `itemCreatesRow` count. -/
theorem runItems_spec (ok : Nat → Nat → Bool) (now : Nat) (items : List Json) :
    ∀ (db : Db) (i pub skip : Nat),
    (runItems ok now items db i pub skip).1 =
        pub + ((items.enumFrom i).countP fun p => itemPublishes ok p.1 p.2) ∧
    (runItems ok now items db i pub skip).2.1 =
        skip + (items.length - ((items.enumFrom i).countP fun p => itemPublishes ok p.1 p.2)) ∧
    (runItems ok now items db i pub skip).2.2.properties.length =
        db.properties.length + ((items.enumFrom i).countP fun p => itemCreatesRow ok p.1 p.2) := by
  induction items with
  | nil => intro db i pub skip; simp [runItems]
  | cons item rest ih =>
    intro db i pub skip
    have hps := processItem_spec ok now db i item
    have hcle : ((rest.enumFrom (i + 1)).countP fun p => itemPublishes ok p.1 p.2) ≤
        (rest.enumFrom (i + 1)).length := List.countP_le_length _
    have hlen : (rest.enumFrom (i + 1)).length = rest.length := by
      simp
    rw [hlen] at hcle
    unfold runItems
    dsimp only
    obtain ⟨ih1, ih2, ih3⟩ :=
      ih (processItem ok now db i item).1 (i + 1) (pub + 1) skip
    obtain ⟨ih4, ih5, ih6⟩ :=
      ih (processItem ok now db i item).1 (i + 1) pub (skip + 1)
    split
    · rename_i hstep
      have hpub : itemPublishes ok i item = true := hps.1.symm.trans hstep
      refine ⟨?_, ?_, ?_⟩
      · rw [ih1]
        simp [List.enumFrom, List.countP_cons, hpub] <;> omega
      · rw [ih2]
        simp [List.enumFrom, List.countP_cons, hpub] <;> omega
      · rw [ih3, hps.2]
        simp only [List.enumFrom, List.countP_cons]
        cases itemCreatesRow ok i item <;> simp <;> omega
    · rename_i hstep
      have hf : (processItem ok now db i item).2 = false := Bool.eq_false_iff.mpr hstep
      have hpub : itemPublishes ok i item = false := hps.1.symm.trans hf
      refine ⟨?_, ?_, ?_⟩
      · rw [ih4]
        simp [List.enumFrom, List.countP_cons, hpub] <;> omega
      · rw [ih5]
        simp [List.enumFrom, List.countP_cons, hpub] <;> omega
      · rw [ih6, hps.2]
        simp only [List.enumFrom, List.countP_cons]
        cases itemCreatesRow ok i item <;> simp <;> omega

/-- C1: for a payload whose `searchResults` field is an array of N
items, the runner completes with success, `published` equal to the
number K of items that pass the unstaged-image gate and whose writes all
persist, `skipped` equal to N − K, and exactly one property row added
per item whose gate and `property.create` succeed — so an item lacking a
non-empty unstaged list creates no property row, and a per-item
persistence failure is a skip that never aborts the batch. -/
theorem publish_batch_counts (ok : Nat → Nat → Bool) (now : Nat) (db : Db)
    (data : Json) (items : List Json)
    (h : data.get "searchResults" = Json.arr items) :
    (publishToDatabase ok now db data).1.success = true ∧
    (publishToDatabase ok now db data).1.published =
      ((items.enumFrom 0).countP fun p => itemPublishes ok p.1 p.2) ∧
    (publishToDatabase ok now db data).1.skipped =
      items.length - ((items.enumFrom 0).countP fun p => itemPublishes ok p.1 p.2) ∧
    (publishToDatabase ok now db data).2.properties.length =
      db.properties.length + ((items.enumFrom 0).countP fun p => itemCreatesRow ok p.1 p.2) := by
  have hr := runItems_spec ok now items db 0 0 0
  unfold publishToDatabase
  cases data with
  | null => exact Json.noConfusion h
  | bool b => exact Json.noConfusion h
  | num n => exact Json.noConfusion h
  | str st => exact Json.noConfusion h
  | arr elems => exact Json.noConfusion h
  | obj fields =>
    dsimp only
    rw [h]
    exact ⟨rfl, by simpa using hr.1, by simpa using hr.2.1, by simpa using hr.2.2⟩

/-- Witness: a batch of two items (one publishable and one lacking the
unstaged-image list) under an oracle accepting only the first item's
writes publishes one and skips one. -/
theorem publish_batch_counts_witness :
    (publishToDatabase okFirstOnly 9 dbEmpty payloadGood).1.success = true ∧
    (publishToDatabase okFirstOnly 9 dbEmpty payloadGood).1.published = 1 ∧
    (publishToDatabase okFirstOnly 9 dbEmpty payloadGood).1.skipped = 1 := by
  have h := publish_batch_counts okFirstOnly 9 dbEmpty payloadGood
    [itemGood, Json.obj []] rfl
  exact ⟨h.1, h.2.1.trans (by decide), h.2.2.1.trans (by decide)⟩

/-! ### Search pipeline lemmas -/

/-- Sorting is a permutation. -/
theorem sortByUpdatedDesc_perm (l : List Property) :
    List.Perm (sortByUpdatedDesc l) l :=
  List.perm_insertionSort _ _

/-- Sorting sorts by `updated_at` descending. -/
theorem sortByUpdatedDesc_sorted (l : List Property) :
    List.Sorted updatedDesc (sortByUpdatedDesc l) :=
  List.sorted_insertionSort _ _

/-- A row of the fetched page comes from the filtered set. -/
theorem mem_of_mem_take_sort (l : List Property) (p : Property)
    (h : p ∈ (sortByUpdatedDesc l).take 31) : p ∈ l :=
  (sortByUpdatedDesc_perm l).subset (List.take_subset _ _ h)

/-- When at most 31 rows match, the page is the whole sorted list. -/
theorem take_sort_of_le (l : List Property) (h : l.length ≤ 31) :
    (sortByUpdatedDesc l).take 31 = sortByUpdatedDesc l :=
  List.take_of_length_le (by rw [(sortByUpdatedDesc_perm l).length_eq]; exact h)

/-- The page length is the match count capped at 31. -/
theorem length_take_sort (l : List Property) :
    ((sortByUpdatedDesc l).take 31).length = min 31 l.length := by
  rw [List.length_take, (sortByUpdatedDesc_perm l).length_eq]

/-- Distinct ids survive filtering, sorting and paging. -/
theorem nodup_ids_take_sort (store : List Property) (pred : Property → Bool)
    (h : (store.map Property.id).Nodup) :
    (((sortByUpdatedDesc (store.filter pred)).take 31).map Property.id).Nodup := by
  have h1 : ((store.filter pred).map Property.id).Nodup :=
    List.Nodup.sublist ((List.filter_sublist store).map Property.id) h
  have h2 : ((sortByUpdatedDesc (store.filter pred)).map Property.id).Nodup :=
    (((sortByUpdatedDesc_perm _).map Property.id).nodup_iff).mpr h1
  exact List.Nodup.sublist ((List.take_sublist _ _).map Property.id) h2

/-- The projection keeps ids. -/
theorem map_id_toSummary (l : List Property) :
    (l.map toSummary).map SearchResultSummary.id = l.map Property.id := by
  induction l with
  | nil => rfl
  | cons p ps ih => simp [ih]; rfl

/-- A list of naturals without duplicates in which every element equals
`n` has at most one element. -/
theorem nodup_all_eq_length_le_one (l : List Nat) (n : Nat) (hnd : l.Nodup)
    (hall : ∀ x ∈ l, x = n) : l.length ≤ 1 := by
  cases l with
  | nil => simp
  | cons a t =>
    cases t with
    | nil => simp
    | cons b t2 =>
      exfalso
      have ha := hall a (List.mem_cons_self _ _)
      have hb := hall b (List.mem_cons_of_mem _ (List.mem_cons_self _ _))
      rw [List.nodup_cons] at hnd
      exact hnd.1 (by rw [ha.trans hb.symm]; exact List.mem_cons_self _ _)

/-- With distinct ids, at most one summary in a list carries a given id. -/
theorem countP_id_le_one (l : List SearchResultSummary) (n : Nat)
    (h : (l.map SearchResultSummary.id).Nodup) :
    (l.countP fun s => s.id == n) ≤ 1 := by
  rw [List.countP_eq_length_filter]
  have hlen : ((l.filter fun s => s.id == n).map SearchResultSummary.id).length =
      (l.filter fun s => s.id == n).length := List.length_map _ _
  rw [← hlen]
  apply nodup_all_eq_length_le_one _ n
  · exact List.Nodup.sublist ((List.filter_sublist l).map SearchResultSummary.id) h
  · intro x hx
    obtain ⟨s, hs, rfl⟩ := List.mem_map.mp hx
    have := List.of_mem_filter hs
    simpa using this

/-- `findUnique` returns a member with the looked-up id. -/
theorem findById_some (store : List Property) (n : Nat) (p : Property)
    (h : findById store n = some p) : p ∈ store ∧ p.id = n := by
  unfold findById at h
  exact ⟨List.mem_of_find?_eq_some h, by simpa using List.find?_some h⟩

/-- A failed `findUnique` means no member has the id. -/
theorem findById_none (store : List Property) (n : Nat)
    (h : findById store n = none) : ∀ p ∈ store, p.id ≠ n := by
  unfold findById at h
  intro p hp
  have := List.find?_eq_none.mp h p hp
  simpa using this

/-- With distinct ids, two members with the same id are equal. -/
theorem id_unique (store : List Property) (h : (store.map Property.id).Nodup)
    (p q : Property) (hp : p ∈ store) (hq : q ∈ store) (heq : p.id = q.id) :
    p = q :=
  List.inj_on_of_nodup_map h hp hq heq

/-! ### Claim C6: quoted exact search -/

/-- C6 fails on the code as universally stated: with 32 records whose
street address is exactly `x`, the quoted query returns only 31 of them
(the fetch limit), and the oldest matching record is missing from the
result. -/
theorem exact_search_cap_counterexample :
    (searchProperties c6store ("\"x\"") false).length = 31 ∧
    (c6store.filter (exactMatchRow "x")).length = 32 ∧
    toSummary { id := 1, street_address := some "x", updated_at := 0 } ∉
      searchProperties c6store ("\"x\"") false := by
  decide

/-- C6 amended: a non-numeric query wrapped in double quotes strips the
quotes and returns only records with a field (street address, agent
display name, agent phone) case-insensitively fully equal to the term —
substring-only matches are excluded, no record is duplicated, the result
is ordered by last-updated descending — and it returns exactly the
matching records whenever at most 31 records match (the fetch limit;
with more matches only the 31 most recently updated are fetched). -/
theorem quoted_exact_search (store : List Property) (q inner : String)
    (hids : (store.map Property.id).Nodup)
    (hq : stripQuotes q = some inner)
    (hnum : isNumericStr (strTrim q) = false)
    (hne : (strTrim q).isEmpty = false) :
    (∀ s ∈ searchProperties store q false,
       ∃ p, p ∈ store ∧ exactMatchRow inner p = true ∧ toSummary p = s) ∧
    ((store.filter (exactMatchRow inner)).length ≤ 31 →
       ∀ p ∈ store, exactMatchRow inner p = true →
         toSummary p ∈ searchProperties store q false) ∧
    (∀ p ∈ store, exactMatchRow inner p = false →
       toSummary p ∉ searchProperties store q false) ∧
    List.Pairwise (fun a b => b.updated_at ≤ a.updated_at)
      (searchProperties store q false) ∧
    ((searchProperties store q false).map SearchResultSummary.id).Nodup := by
  have hred : searchProperties store q false = performExactSearch store inner := by
    unfold searchProperties
    simp [hne, hnum, hq]
  rw [hred]
  unfold performExactSearch
  refine ⟨?_, ?_, ?_, ?_, ?_⟩
  · intro s hs
    obtain ⟨p, hp, rfl⟩ := List.mem_map.mp hs
    have hpf := mem_of_mem_take_sort _ _ hp
    exact ⟨p, List.mem_of_mem_filter hpf, List.of_mem_filter hpf, rfl⟩
  · intro hcap p hp hmatch
    rw [take_sort_of_le _ hcap]
    exact List.mem_map_of_mem toSummary
      (((sortByUpdatedDesc_perm _).mem_iff).mpr (List.mem_filter.mpr ⟨hp, hmatch⟩))
  · intro p hp hmatch hcontra
    obtain ⟨p2, hp2, hm2, heq⟩ := by
      have : ∀ s ∈ ((sortByUpdatedDesc (store.filter (exactMatchRow inner))).take 31).map toSummary,
          ∃ p, p ∈ store ∧ exactMatchRow inner p = true ∧ toSummary p = s := by
        intro s hs
        obtain ⟨p3, hp3, rfl⟩ := List.mem_map.mp hs
        have hpf := mem_of_mem_take_sort _ _ hp3
        exact ⟨p3, List.mem_of_mem_filter hpf, List.of_mem_filter hpf, rfl⟩
      exact this _ hcontra
    have hid : p2.id = p.id := congrArg SearchResultSummary.id heq
    have : p2 = p := id_unique store hids p2 p hp2 hp hid
    rw [this] at hm2
    rw [hm2] at hmatch
    cases hmatch
  · apply List.Pairwise.map
    · intro a b hab
      exact hab
    · exact List.Pairwise.sublist (List.take_sublist _ _) (sortByUpdatedDesc_sorted _)
  · rw [map_id_toSummary]
    exact nodup_ids_take_sort store _ hids

/-- Witness: the quoted query at a concrete store, matching only by full
case-insensitive equality. -/
theorem quoted_exact_search_witness :
    toSummary pr7 ∈ searchProperties storeW ("\"9 elm ave\"") false :=
  (quoted_exact_search storeW ("\"9 elm ave\"") "9 elm ave" (by decide) (by decide)
      (by decide) (by decide)).2.1 (by decide) pr7 (by decide) (by decide)

/-! ### Claim C5: numeric query in normal mode -/

/-- C5: in normal mode a purely numeric query runs both the exact id
lookup and the fuzzy search; when the id lookup succeeds and its id is
absent from the fuzzy matches the record is prepended (it ranks first),
when its id already appears among the fuzzy matches the fuzzy results
are returned unchanged, and the id never occurs more than once in the
output. -/
theorem numeric_query_exact_id_first (store : List Property) (q : String)
    (hids : (store.map Property.id).Nodup)
    (hnum : isNumericStr (strTrim q) = true) :
    (∀ m, findById store (parseDigits (strTrim q)) = some m →
       ((∀ s ∈ performFuzzySearch store q, s.id ≠ parseDigits (strTrim q)) →
          searchProperties store q false = toSummary m :: performFuzzySearch store q) ∧
       ((∃ s ∈ performFuzzySearch store q, s.id = parseDigits (strTrim q)) →
          searchProperties store q false = performFuzzySearch store q)) ∧
    ((searchProperties store q false).countP
        fun s => s.id == parseDigits (strTrim q)) ≤ 1 := by
  have hne : (strTrim q).isEmpty = false := by
    cases h : (strTrim q).isEmpty with
    | false => rfl
    | true => unfold isNumericStr at hnum; rw [h] at hnum; simp at hnum
  have hred : searchProperties store q false =
      (match findById store (parseDigits (strTrim q)) with
       | some m =>
         if (performFuzzySearch store q).any (fun p => p.id == m.id) then
           performFuzzySearch store q
         else toSummary m :: performFuzzySearch store q
       | none => performFuzzySearch store q) := by
    unfold searchProperties
    simp [hne, hnum]
  have hnd : ((performFuzzySearch store q).map SearchResultSummary.id).Nodup := by
    unfold performFuzzySearch
    rw [map_id_toSummary]
    exact nodup_ids_take_sort store _ hids
  constructor
  · intro m hm
    obtain ⟨hmem, hmid⟩ := findById_some store _ m hm
    constructor
    · intro hall
      rw [hred, hm]
      dsimp only
      have hany : (performFuzzySearch store q).any (fun p => p.id == m.id) = false := by
        rw [List.any_eq_false]
        intro s hs
        rw [hmid]
        exact fun hc => hall s hs (by simpa using hc)
      rw [hany]
      simp
    · intro hdup
      obtain ⟨s, hs, hsid⟩ := hdup
      rw [hred, hm]
      dsimp only
      have hany : (performFuzzySearch store q).any (fun p => p.id == m.id) = true :=
        List.any_eq_true.mpr ⟨s, hs, by rw [hmid]; simpa using hsid⟩
      rw [hany]
      simp
  · rw [hred]
    cases hm : findById store (parseDigits (strTrim q)) with
    | none => exact countP_id_le_one _ _ hnd
    | some m =>
      dsimp only
      obtain ⟨hmem, hmid⟩ := findById_some store _ m hm
      by_cases hany : (performFuzzySearch store q).any (fun p => p.id == m.id) = true
      · rw [hany]
        simp only [if_true]
        exact countP_id_le_one _ _ hnd
      · have hany2 : (performFuzzySearch store q).any (fun p => p.id == m.id) = false :=
          Bool.eq_false_iff.mpr hany
        rw [hany2]
        simp only [Bool.false_eq_true, if_false]
        rw [List.countP_cons]
        have hzero : ((performFuzzySearch store q).countP
            fun s => s.id == parseDigits (strTrim q)) = 0 := by
          rw [List.countP_eq_zero]
          intro s hs
          have := List.any_eq_false.mp hany2 s hs
          rw [hmid] at this
          exact this
        rw [hzero]
        have : (toSummary m).id = parseDigits (strTrim q) := hmid
        simp [this]

/-- Witness: query `7` against a store whose id-7 record does not
fuzzy-match is prepended ahead of the fuzzy matches. -/
theorem numeric_query_exact_id_first_witness :
    searchProperties storeW "7" false = toSummary pr7 :: performFuzzySearch storeW "7" :=
  ((numeric_query_exact_id_first storeW "7" (by decide) (by decide)).1 pr7
    (by decide)).1 (by decide)

/-! ### Claim C2: 30-row cap and overflow signal -/

/-- Counting a disjunction splits into the first predicate and the part
of the second outside it. -/
theorem countP_or_split (l : List α) (a b : α → Bool) :
    (l.countP fun x => a x || b x) = l.countP a + (l.countP fun x => !a x && b x) := by
  induction l with
  | nil => simp
  | cons x xs ih =>
    rw [List.countP_cons, List.countP_cons, List.countP_cons, ih]
    cases ha : a x <;> cases hb : b x <;> simp [ha, hb] <;> omega

/-- With distinct ids, at most one store row carries a given id. -/
theorem countP_pid_le_one (store : List Property) (n : Nat)
    (hids : (store.map Property.id).Nodup) :
    (store.countP fun p => p.id == n) ≤ 1 := by
  rw [List.countP_eq_length_filter]
  have hlen := List.length_map (store.filter fun p => p.id == n) Property.id
  rw [← hlen]
  apply nodup_all_eq_length_le_one _ n
  · exact List.Nodup.sublist ((List.filter_sublist store).map Property.id) hids
  · intro x hx
    obtain ⟨p, hp, rfl⟩ := List.mem_map.mp hx
    simpa using List.of_mem_filter hp

/-- A member outside the 31-row page forces at least 32 rows. -/
theorem length_ge_of_not_mem_take (l : List Property) (x : Property)
    (hx : x ∈ l) (hnx : x ∉ l.take 31) : 32 ≤ l.length := by
  by_contra h
  push_neg at h
  rw [List.take_of_length_le (by omega)] at hnx
  exact hnx hx

/-- The fuzzy page length is the fuzzy match count capped at 31. -/
theorem length_performFuzzySearch (store : List Property) (q : String) :
    (performFuzzySearch store q).length =
      min 31 (store.countP (fuzzyMatchRow (strTrim q))) := by
  unfold performFuzzySearch
  rw [List.length_map, length_take_sort, ← List.countP_eq_length_filter]

/-- The exact page length is the exact match count capped at 31. -/
theorem length_performExactSearch (store : List Property) (inner : String) :
    (performExactSearch store inner).length =
      min 31 (store.countP (exactMatchRow inner)) := by
  unfold performExactSearch
  rw [List.length_map, length_take_sort, ← List.countP_eq_length_filter]

/-- The list `searchProperties` fetches exceeds 30 rows exactly when the
true match count of the query exceeds 30, in every mode. -/
theorem search_length_iff_count (store : List Property) (q : String)
    (idOnly : Bool) (hids : (store.map Property.id).Nodup) :
    30 < (searchProperties store q idOnly).length ↔
      30 < trueMatchCount store q idOnly := by
  unfold searchProperties trueMatchCount
  cases hemp : (strTrim q).isEmpty with
  | true => simp [hemp]
  | false =>
    cases idOnly with
    | true =>
      cases hnum : isNumericStr (strTrim q) with
      | false => simp [hemp, hnum]
      | true =>
        cases hm : findById store (parseDigits (strTrim q)) with
        | none =>
          have h0 : (store.filter fun p => p.id == parseDigits (strTrim q)).length = 0 := by
            rw [List.length_eq_zero, List.filter_eq_nil]
            intro p hp
            simpa using findById_none store _ hm p hp
          simp [hemp, hnum, hm, h0]
        | some p =>
          have hle := countP_pid_le_one store (parseDigits (strTrim q)) hids
          rw [List.countP_eq_length_filter] at hle
          simp [hemp, hnum, hm]
          omega
    | false =>
      cases hnum : isNumericStr (strTrim q) with
      | false =>
        cases hq : stripQuotes q with
        | some inner =>
          simp [hemp, hnum, hq]
          rw [length_performExactSearch, List.countP_eq_length_filter]
          omega
        | none =>
          simp [hemp, hnum, hq]
          rw [length_performFuzzySearch, List.countP_eq_length_filter]
          omega
      | true =>
        have hsplit : (store.countP fun p =>
              fuzzyMatchRow (strTrim q) p || p.id == parseDigits (strTrim q)) =
            store.countP (fuzzyMatchRow (strTrim q)) +
              (store.countP fun p =>
                !fuzzyMatchRow (strTrim q) p && (p.id == parseDigits (strTrim q))) :=
          countP_or_split store _ _
        cases hm : findById store (parseDigits (strTrim q)) with
        | none =>
          have hz : (store.countP fun p =>
              !fuzzyMatchRow (strTrim q) p && (p.id == parseDigits (strTrim q))) = 0 := by
            rw [List.countP_eq_zero]
            intro p hp
            have := findById_none store _ hm p hp
            simp [this]
          simp [hemp, hnum, hm]
          rw [length_performFuzzySearch, ← List.countP_eq_length_filter, hsplit, hz]
          omega
        | some m =>
          obtain ⟨hmem, hmid⟩ := findById_some store _ m hm
          by_cases hfm : fuzzyMatchRow (strTrim q) m = true
          · have hz : (store.countP fun p =>
                !fuzzyMatchRow (strTrim q) p && (p.id == parseDigits (strTrim q))) = 0 := by
              rw [List.countP_eq_zero]
              intro p hp hc
              rw [Bool.and_eq_true] at hc
              obtain ⟨hnf, hpn⟩ := hc
              have hpid : p.id = m.id := by
                have hpn2 : p.id = parseDigits (strTrim q) := by simpa using hpn
                rw [hpn2, hmid]
              have hpeq : p = m := id_unique store hids p m hp hmem hpid
              rw [hpeq, hfm] at hnf
              cases hnf
            cases hany : (performFuzzySearch store q).any (fun p => p.id == m.id) with
            | true =>
              simp [hemp, hnum, hm, hany]
              rw [length_performFuzzySearch, ← List.countP_eq_length_filter, hsplit, hz]
              omega
            | false =>
              have hmfil : m ∈ store.filter (fuzzyMatchRow (strTrim q)) :=
                List.mem_filter.mpr ⟨hmem, hfm⟩
              have hmsort : m ∈ sortByUpdatedDesc (store.filter (fuzzyMatchRow (strTrim q))) :=
                ((sortByUpdatedDesc_perm _).mem_iff).mpr hmfil
              have hnotin :
                  m ∉ (sortByUpdatedDesc (store.filter (fuzzyMatchRow (strTrim q)))).take 31 := by
                intro hc
                have hmm : toSummary m ∈ performFuzzySearch store q := by
                  unfold performFuzzySearch
                  exact List.mem_map_of_mem toSummary hc
                have := List.any_eq_false.mp hany (toSummary m) hmm
                simp at this
                exact this rfl
              have h32 := length_ge_of_not_mem_take _ _ hmsort hnotin
              rw [(sortByUpdatedDesc_perm _).length_eq,
                ← List.countP_eq_length_filter] at h32
              simp [hemp, hnum, hm, hany]
              rw [length_performFuzzySearch, ← List.countP_eq_length_filter, hsplit, hz]
              omega
          · have hfm2 : fuzzyMatchRow (strTrim q) m = false := Bool.eq_false_iff.mpr hfm
            have hany : (performFuzzySearch store q).any (fun p => p.id == m.id) = false := by
              rw [List.any_eq_false]
              intro s hs hc
              unfold performFuzzySearch at hs
              obtain ⟨p, hp, rfl⟩ := List.mem_map.mp hs
              have hpf := mem_of_mem_take_sort _ _ hp
              have hpm : p ∈ store := List.mem_of_mem_filter hpf
              have hfp := List.of_mem_filter hpf
              have hpeq : p = m := id_unique store hids p m hpm hmem (by simpa using hc)
              rw [hpeq, hfm2] at hfp
              cases hfp
            have hone : (store.countP fun p =>
                !fuzzyMatchRow (strTrim q) p && (p.id == parseDigits (strTrim q))) = 1 := by
              apply le_antisymm
              · calc (store.countP fun p =>
                      !fuzzyMatchRow (strTrim q) p && (p.id == parseDigits (strTrim q)))
                    ≤ store.countP fun p => p.id == parseDigits (strTrim q) := by
                      apply List.countP_mono_left
                      intro p hp hc
                      rw [Bool.and_eq_true] at hc
                      exact hc.2
                  _ ≤ 1 := countP_pid_le_one store _ hids
              · have hpos : 0 < store.countP fun p =>
                    !fuzzyMatchRow (strTrim q) p && (p.id == parseDigits (strTrim q)) :=
                  List.countP_pos.mpr ⟨m, hmem, by simp [hfm2, hmid]⟩
                omega
            simp [hemp, hnum, hm, hany]
            rw [length_performFuzzySearch, ← List.countP_eq_length_filter, hsplit, hone]
            omega

/-- C2: modelled caller — for every query and mode the returned page
holds at most 30 summaries, and the out-of-band "more results" signal is
raised exactly when the true match count exceeds 30 (the 31st fetched
row decides the signal and the list is trimmed to 30). -/
theorem search_cap_and_overflow (store : List Property) (q : String)
    (idOnly : Bool) (hids : (store.map Property.id).Nodup) :
    (searchWithSignal store q idOnly).1.length ≤ 30 ∧
    ((searchWithSignal store q idOnly).2 = true ↔
      30 < trueMatchCount store q idOnly) := by
  constructor
  · unfold searchWithSignal
    simp [List.length_take]
  · unfold searchWithSignal
    dsimp only
    rw [decide_eq_true_eq]
    exact search_length_iff_count store q idOnly hids

/-- Witness: the cap and signal at a concrete store and query. -/
theorem search_cap_and_overflow_witness :
    (searchWithSignal storeW "7" false).1.length ≤ 30 ∧
    ((searchWithSignal storeW "7" false).2 = true ↔
      30 < trueMatchCount storeW "7" false) :=
  search_cap_and_overflow storeW "7" false (by decide)
